import Mathlib

/-!
Verification development for the iRacing telemetry capture tool.

The Python sources are shallowly embedded:
* `storage.py` (`SessionStorage`, `load_session`) — explicit state passing on
  `SessionStorage`; Python floats become `ℚ`; `None` becomes `Option`.
* `capture.py` (`TelemetryCapture.process_telemetry`, lines 338–384) — the
  lap-rollover and sample-accumulation portion of the per-poll step, for an
  active session whose external session number matches the current one
  (the session-change branch, lines 321–336, is not exercised on such polls).
* `exporter.py` (`_interpolate_telemetry`, `export_comparison_csv`) — the
  distance-domain resampling pipeline; `np.interp` is modelled from numpy's
  `arr_interp`/`binary_search_with_guess` (compiled_base.c).

Python dict mutation is rendered as functional record update.  The dict held
in `self.current_lap` is aliased into `session_data["laps"]` after
`finalize_session` appends it; the value model below copies instead.  All
statements proved here concern either op sequences in which the aliased dict
is never mutated after being appended (no storage op between two finalize
calls mutates it), or length/count observations that mutation of the aliased
lap cannot change, so the value model is observationally faithful for them.
-/

set_option maxRecDepth 8192
set_option maxHeartbeats 2000000

/- `Rat.mul`, `Rat.inv`, `Rat.add`, `Rat.sub` are `@[irreducible]` in the
library; concrete evaluations below go through `decide`, which needs them
to reduce. -/
attribute [local semireducible] Rat.mul Rat.inv Rat.add Rat.sub

namespace ITT

/-- One telemetry sample, as built in `capture.py` lines 368–383
(`sample = {...}`); each channel is a Python float, modelled as `ℚ`. -/
structure Sample where
  time : ℚ
  lap_dist : ℚ
  lap_dist_pct : ℚ
  speed : ℚ
  throttle : ℚ
  brake : ℚ
  steering : ℚ
  gear : ℚ
  rpm : ℚ
  lat_accel : ℚ
  long_accel : ℚ
  yaw_rate : ℚ
  steering_wheel_angle : ℚ
deriving DecidableEq, Repr

/-- A lap record, as built by `SessionStorage._start_new_lap`:
`{"lap_number": n, "lap_time": None, "telemetry": []}`. -/
structure Lap where
  lap_number : Nat
  lap_time : Option ℚ
  telemetry : List Sample
deriving DecidableEq, Repr

/-- The session metadata dict built by `initialize_session` (storage.py
lines 57–67), restricted to the fields the claims observe: the generated
`session_id` and the derived `total_laps` counter.  The remaining fields
(timestamp, track/car/driver names, session type) are opaque strings copied
verbatim and never consulted by the verified operations. -/
structure SessionMeta where
  session_id : String
  total_laps : Nat
deriving DecidableEq, Repr

/-- Embeds `session_data = {"metadata": ..., "laps": [...]}` (storage.py
lines 69–72). -/
structure SessionData where
  metadata : SessionMeta
  laps : List Lap
deriving DecidableEq, Repr

/-- The mutable fields of a `SessionStorage` instance (storage.py
lines 32–37) used by the verified operations.  In the source,
`self.metadata` always aliases `self.session_data["metadata"]`; the model
stores it once, inside `session_data`.  `session_id` likewise aliases
`metadata["session_id"]`. -/
structure SessionStorage where
  session_data : Option SessionData
  current_lap : Option Lap
  current_lap_number : Option Nat
deriving DecidableEq, Repr

/-- The freshly constructed storage (`SessionStorage.__init__`). -/
def SessionStorage.init : SessionStorage :=
  { session_data := none, current_lap := none, current_lap_number := none }

/-- Embeds `SessionStorage.initialize_session` (storage.py lines 39–78).  The
`uuid.uuid4()` call is externalized: the fresh identifier is an argument.
Sets `total_laps` to 0, empties the lap list, and starts lap 0. -/
def initialize_session (sid : String) : SessionStorage :=
  { session_data := some { metadata := { session_id := sid, total_laps := 0 }, laps := [] },
    current_lap := some { lap_number := 0, lap_time := none, telemetry := [] },
    current_lap_number := some 0 }

/-- Embeds `SessionStorage.add_telemetry_sample` (storage.py lines 94–113):
no-op when `current_lap is None`, else appends to the open lap. -/
def add_telemetry_sample (st : SessionStorage) (s : Sample) : SessionStorage :=
  match st.current_lap with
  | none => st
  | some cl => { st with current_lap := some { cl with telemetry := cl.telemetry ++ [s] } }

/-- Embeds `SessionStorage.complete_lap` (storage.py lines 115–141): returns the
completed lap number (`None` when no lap is open).  Sets the open lap's
time, appends it to `session_data["laps"]`, recomputes `total_laps`, and
starts the next lap.  The source reads `self.current_lap_number + 1`;
`_start_new_lap` keeps `current_lap_number` equal to
`current_lap["lap_number"]`, so the model falls back to the latter when the
former is absent (a state the source cannot reach with an open lap).  The
source would raise on `session_data is None` with an open lap (also
unreachable); the model leaves the state unchanged there. -/
def complete_lap (st : SessionStorage) (lap_time : ℚ) : SessionStorage × Option Nat :=
  match st.current_lap with
  | none => (st, none)
  | some cl =>
    match st.session_data with
    | none => (st, none)
    | some sd =>
      let cl' : Lap := { cl with lap_time := some lap_time }
      let laps' := sd.laps ++ [cl']
      let sd' : SessionData :=
        { metadata := { sd.metadata with total_laps := laps'.length }, laps := laps' }
      let n := st.current_lap_number.getD cl.lap_number
      ({ session_data := some sd',
         current_lap := some { lap_number := n + 1, lap_time := none, telemetry := [] },
         current_lap_number := some (n + 1) }, some n)

/-- Embeds `SessionStorage.finalize_session` (storage.py lines 167–202).  Returns
the persisted record (`None` when nothing is written) together with the
storage state afterwards.  When `incl` is true and the open lap holds at
least one sample, the open lap is appended with `lap_time` cleared and
`total_laps` recomputed — note the source neither clears `self.current_lap`
nor resets any state afterwards.  If the lap list is then empty nothing is
persisted.  JSON encoding is content-faithful for these records
(strings, integers, `null`, and floats all round-trip exactly through
Python's `json.dump`/`json.load`), so the written file is modelled by the
record itself. -/
def finalize_session (st : SessionStorage) (incl : Bool) :
    Option SessionData × SessionStorage :=
  match st.session_data with
  | none => (none, st)
  | some sd =>
    let step : SessionData × Option Lap :=
      match st.current_lap with
      | some cl =>
        if incl ∧ cl.telemetry.length > 0 then
          let cl' : Lap := { cl with lap_time := none }
          let laps' := sd.laps ++ [cl']
          ({ metadata := { sd.metadata with total_laps := laps'.length }, laps := laps' },
           some cl')
        else (sd, some cl)
      | none => (sd, none)
    let st' : SessionStorage :=
      { st with session_data := some step.1, current_lap := step.2 }
    if step.1.laps.length = 0 then (none, st') else (some step.1, st')

/-- Embeds `SessionStorage.reset` (storage.py lines 204–210). -/
def SessionStorage.reset (_st : SessionStorage) : SessionStorage :=
  SessionStorage.init

/-- The lap list of the active session, `[]` when no session is active. -/
def sessionLaps (st : SessionStorage) : List Lap :=
  match st.session_data with
  | none => []
  | some sd => sd.laps

/-- Embeds `load_session` (storage.py lines 267–297), over an abstract list of
persisted records standing for the JSON files under `base_dir` in scan
order.  A record matches when its stored id equals the query or starts with
it; the first match wins; unreadable files (absent from the value model)
are skipped. -/
def load_session (records : List SessionData) (sid : String) : Option SessionData :=
  records.find? (fun sd =>
    sd.metadata.session_id == sid || sid.isPrefixOf sd.metadata.session_id)

/-! ## Capture layer (`capture.py`) -/

/-- The lap-tracking fields of `TelemetryCapture` (capture.py lines 29–32)
touched by the lap-rollover logic: `self.current_lap` (the last observed
external lap counter) and `self.best_lap_time`. -/
structure CaptureState where
  storage : SessionStorage
  current_lap : Option Int
  best_lap_time : Option ℚ
deriving DecidableEq, Repr

/-- The fields of one polled telemetry snapshot consumed by the
lap-rollover and sample-storage portion of `process_telemetry`: the
external lap counter (`telemetry.get('lap')`), the externally reported
last-lap duration (`telemetry.get('lap_last_lap_time')`), and the sample
built from the remaining channels. -/
structure TelemetryInput where
  lap : Option Int
  lap_last_lap_time : Option ℚ
  sample : Sample
deriving DecidableEq, Repr

/-- Embeds `TelemetryCapture.process_telemetry`, lines 338–384: the lap-change
check and sample storage, i.e. the per-poll step during an active session
whose external session number equals the current one (so the session-change
branch at lines 321–336 does not fire).  A lap completion fires only when
the observed counter is `some` and strictly exceeds the previously observed
value; the first observed counter only seeds `current_lap`.  At a rollover
the completion is recorded only when the reported last-lap time is present
and positive, in which case the best-lap time is lowered when strictly
beaten; the observed counter is updated either way.  The sample is stored
after all lap transitions are resolved. -/
def processLapAndSample (st : CaptureState) (t : TelemetryInput) : CaptureState :=
  let st1 : CaptureState :=
    match t.lap with
    | none => st
    | some n =>
      match st.current_lap with
      | none => { st with current_lap := some n }
      | some cur =>
        if n > cur then
          let st2 : CaptureState :=
            match t.lap_last_lap_time with
            | none => st
            | some lt =>
              if lt > 0 then
                let stor' := (complete_lap st.storage lt).1
                let best' : Option ℚ :=
                  match st.best_lap_time with
                  | none => some lt
                  | some b => if lt < b then some lt else some b
                { st with storage := stor', best_lap_time := best' }
              else st
          { st2 with current_lap := some n }
        else st
  { st1 with storage := add_telemetry_sample st1.storage t.sample }

/-- The capture state right after `initialize_new_session` (capture.py
lines 205–223): freshly initialized storage, no observed lap counter, no
best lap time. -/
def initialCapture (sid : String) : CaptureState :=
  { storage := initialize_session sid, current_lap := none, best_lap_time := none }

/-- One poll input with all fields present: external counter `n`, reported
last-lap time `lt`, sample `s`. -/
def mkInput (n : Int) (lt : ℚ) (s : Sample) : TelemetryInput :=
  { lap := some n, lap_last_lap_time := some lt, sample := s }

/-- Folding `process_telemetry` over a sequence of polls, each poll given
as (external lap counter, reported last-lap time, sample). -/
def runCapture (st : CaptureState) (ins : List (Int × ℚ × Sample)) : CaptureState :=
  ins.foldl (fun s x => processLapAndSample s (mkInput x.1 x.2.1 x.2.2)) st

/-! ## Exporter layer (`exporter.py`)

`numpy.interp` is modelled from numpy's C implementation (`arr_interp` and
`binary_search_with_guess` in `compiled_base.c`), over `ℚ` instead of IEEE
doubles: out-of-range keys are clamped by comparing against the first/last
source point, arrays of length ≤ 4 use the linear scan, longer arrays a
bisection with `imin + (imax - imin) / 2` midpoints.  (`numpy` additionally
seeds the bisection with a guess index; on arrays sorted ascending — the
documented precondition of `np.interp` — the guess path returns the same
index as plain bisection, and on arrays of length ≤ 4 it is not taken at
all.  Every concrete evaluation below uses length ≤ 4 and every general
statement about longer arrays assumes sortedness, so the model agrees with
`numpy` wherever it is relied upon.) -/

/-- The linear-search branch of `binary_search_with_guess` (taken when the
array has at most 4 entries): the C loop
`for (i = 1; i < len && key >= arr[i]; ++i); return i - 1;` advances `i`
past the leading entries from index 1 that the key is ≥, so `i - 1` is the
length of the longest such leading run of the tail — computed here by
structural recursion on that tail. -/
def linearScanTail (key : ℚ) : List ℚ → Nat
  | [] => 0
  | v :: rest => if key ≥ v then linearScanTail key rest + 1 else 0

/-- The bisection loop of `binary_search_with_guess`: narrow `[imin, imax)`
with midpoint `imin + (imax - imin) / 2`, moving `imin` past the midpoint
when the key is ≥ the midpoint entry; the caller subtracts 1 from the
final `imin`.  Each iteration strictly shrinks `imax - imin`, so running
the loop on a fuel of at least the initial `imax - imin` (the caller
passes `arr.length`) reproduces the C loop exactly; the fuel-exhausted
arm is never reached. -/
def bsearchLoop (key : ℚ) (arr : List ℚ) : Nat → Nat → Nat → Nat
  | imin, _, 0 => imin
  | imin, imax, fuel + 1 =>
    if imin < imax then
      let imid := imin + (imax - imin) / 2
      if key ≥ arr.getD imid 0 then bsearchLoop key arr (imid + 1) imax fuel
      else bsearchLoop key arr imin imid fuel
    else imin

/-- Models `binary_search_with_guess(key, arr, len)` as an index in
`[-1, arr.length]`: `-1` when the key is below the first entry, `len` when
above the last, otherwise the interval index found by linear scan
(length ≤ 4) or bisection. -/
def binary_search (key : ℚ) (arr : List ℚ) : Int :=
  if arr.isEmpty then -1
  else if key > arr.getLastD 0 then arr.length
  else if key < arr.headD 0 then -1
  else if arr.length ≤ 4 then (linearScanTail key (arr.drop 1) : Int)
  else (bsearchLoop key arr 0 arr.length arr.length : Int) - 1

/-- Models `np.interp` at a single target point, following `arr_interp`: a
one-point source always yields its value; otherwise the search index
selects clamping to the first/last value, an exact hit, or the linear
interpolant between adjacent source points. -/
def np_interp_point (x : ℚ) (xs ys : List ℚ) : ℚ :=
  if xs.length = 1 then ys.headD 0
  else
    let j := binary_search x xs
    if j = -1 then ys.headD 0
    else if j = (xs.length : Int) then ys.getLastD 0
    else
      let jn := j.toNat
      if jn = xs.length - 1 then ys.getD jn 0
      else if xs.getD jn 0 = x then ys.getD jn 0
      else
        let slope := (ys.getD (jn + 1) 0 - ys.getD jn 0) /
          (xs.getD (jn + 1) 0 - xs.getD jn 0)
        slope * (x - xs.getD jn 0) + ys.getD jn 0

/-- Models `np.interp(targets, xs, ys)`. -/
def np_interp (targets xs ys : List ℚ) : List ℚ :=
  targets.map (fun x => np_interp_point x xs ys)

/-- Python `int()` applied to a float: truncation toward zero. -/
def pyInt (q : ℚ) : Int :=
  if q < 0 then Rat.ceil q else Rat.floor q

/-- The dictionary of per-channel interpolated arrays returned by
`DataExporter._interpolate_telemetry`. -/
structure InterpChannels where
  speed : List ℚ
  throttle : List ℚ
  brake : List ℚ
  steering : List ℚ
  gear : List ℚ
  rpm : List ℚ
  lat_accel : List ℚ
  long_accel : List ℚ
  yaw_rate : List ℚ
  steering_wheel_angle : List ℚ
deriving DecidableEq, Repr

/-- Embeds `DataExporter._interpolate_telemetry` (exporter.py lines 241–282):
`None` on empty telemetry; otherwise each channel is interpolated against
the samples' `lap_dist_pct` values taken in their stored order — the
source performs no sorting. -/
def interpolate_telemetry (telemetry : List Sample) (target_distances : List ℚ) :
    Option InterpChannels :=
  if telemetry.isEmpty then none
  else
    let distances := telemetry.map (·.lap_dist_pct)
    some
      { speed := np_interp target_distances distances (telemetry.map (·.speed)),
        throttle := np_interp target_distances distances (telemetry.map (·.throttle)),
        brake := np_interp target_distances distances (telemetry.map (·.brake)),
        steering := np_interp target_distances distances (telemetry.map (·.steering)),
        gear := np_interp target_distances distances (telemetry.map (·.gear)),
        rpm := np_interp target_distances distances (telemetry.map (·.rpm)),
        lat_accel := np_interp target_distances distances (telemetry.map (·.lat_accel)),
        long_accel := np_interp target_distances distances (telemetry.map (·.long_accel)),
        yaw_rate := np_interp target_distances distances (telemetry.map (·.yaw_rate)),
        steering_wheel_angle :=
          np_interp target_distances distances (telemetry.map (·.steering_wheel_angle)) }

/-- Models `np.arange(0, 1.0, 0.001)`: the 1000 grid points `i / 1000`. -/
def target_distances : List ℚ :=
  (List.range 1000).map (fun (i : Nat) => (i : ℚ) / 1000)

/-- The lap lookup inside the comparison export: the first stored lap whose
`lap_number` equals the 0-based index. -/
def findLap (laps : List Lap) (idx : Int) : Option Lap :=
  laps.find? (fun l => (l.lap_number : Int) == idx)

/-- The collection loop of `export_comparison_csv` (exporter.py
lines 296–316): each requested 1-based lap number is resolved to a stored
lap; a missing lap or one with empty telemetry aborts the whole export. -/
def collectLapsData (laps : List Lap) (ns : List Int) :
    Option (List (Int × List Sample)) :=
  match ns with
  | [] => some []
  | n :: rest =>
    match findLap laps (n - 1) with
    | none => none
    | some l =>
      if l.telemetry.isEmpty then none
      else (collectLapsData laps rest).map (fun r => (n, l.telemetry) :: r)

/-- One lap's cells in one output row of the comparison CSV: `gear` is
written as `int(data['gear'][i])`, every other channel verbatim. -/
structure LapCols where
  speed : ℚ
  throttle : ℚ
  brake : ℚ
  steering : ℚ
  gear : Int
  rpm : ℚ
  lat_accel : ℚ
  long_accel : ℚ
  yaw_rate : ℚ
  steering_wheel_angle : ℚ
deriving DecidableEq, Repr

/-- One data row of the comparison CSV (exporter.py lines 380–401):
`distance_pct`, the approximate `distance = dist_pct * 1000`, then the
per-lap cells keyed by the requested (1-based) lap number. -/
structure Row where
  distance_pct : ℚ
  distance : ℚ
  laps : List (Int × LapCols)
deriving DecidableEq, Repr

/-- The row written for grid index `i`. -/
def mkRow (interp_laps : List (Int × InterpChannels)) (i : Nat) : Row :=
  let dp : ℚ := (i : ℚ) / 1000
  { distance_pct := dp,
    distance := dp * 1000,
    laps := interp_laps.map (fun p =>
      (p.1,
        { speed := p.2.speed.getD i 0,
          throttle := p.2.throttle.getD i 0,
          brake := p.2.brake.getD i 0,
          steering := p.2.steering.getD i 0,
          gear := pyInt (p.2.gear.getD i 0),
          rpm := p.2.rpm.getD i 0,
          lat_accel := p.2.lat_accel.getD i 0,
          long_accel := p.2.long_accel.getD i 0,
          yaw_rate := p.2.yaw_rate.getD i 0,
          steering_wheel_angle := p.2.steering_wheel_angle.getD i 0 })) }

/-- Embeds `DataExporter.export_comparison_csv` (exporter.py lines 284–403),
returning the table written to the CSV file, or `none` when no file is
produced: any requested lap that is absent or sample-free aborts, fewer
than 2 collected laps aborts, then every collected lap is interpolated
onto the 1000-point grid and one row per grid point is emitted. -/
def export_comparison_csv (sd : SessionData) (lap_numbers : List Int) :
    Option (List Row) :=
  match collectLapsData sd.laps lap_numbers with
  | none => none
  | some laps_data =>
    if laps_data.isEmpty then none
    else if laps_data.length < 2 then none
    else
      let interpolated_laps := laps_data.filterMap (fun p =>
        (interpolate_telemetry p.2 target_distances).map (fun c => (p.1, c)))
      if interpolated_laps.isEmpty then none
      else some ((List.range 1000).map (mkRow interpolated_laps))

/-- Modelled from the spec: the comparison resampler's source samples
"sorted by `distancePct` ascending" — a stable sort of the telemetry by
`lap_dist_pct`. -/
def sortByDistPct (telemetry : List Sample) : List Sample :=
  List.insertionSort (fun a b => a.lap_dist_pct ≤ b.lap_dist_pct) telemetry

/-- Modelled from the spec: "`gear` rounded to the nearest integer on
output" (round half away from the lower integer; the concrete refutation
below is not at a half-integer, so the tie policy is immaterial). -/
def roundNearestSpec (q : ℚ) : Int := round q

/-! ## Storage operation sequences -/

/-- The public mutating operations of `SessionStorage`, for quantifying
over call sequences. -/
inductive StoreOp where
  | initSession (sid : String)
  | addSample (s : Sample)
  | completeLap (t : ℚ)
  | finalize (incl : Bool)
  | resetOp
deriving DecidableEq, Repr

/-- Apply one storage operation (discarding the operations' return
values, which do not affect the stored state). -/
def applyOp (st : SessionStorage) : StoreOp → SessionStorage
  | .initSession sid => initialize_session sid
  | .addSample s => add_telemetry_sample st s
  | .completeLap t => (complete_lap st t).1
  | .finalize incl => (finalize_session st incl).2
  | .resetOp => st.reset

/-- Run a sequence of storage operations from a fresh `SessionStorage`. -/
def runOps (ops : List StoreOp) : SessionStorage :=
  ops.foldl applyOp SessionStorage.init

/-- The operations available between session initialization and
finalization: sample accumulation and lap completion. -/
def midOp : StoreOp → Prop
  | .addSample _ => True
  | .completeLap _ => True
  | _ => False

/-- The claim-C3 invariant: whenever a session is active, its
`total_laps` counter equals the length of its lap list. -/
def totalLapsInv (st : SessionStorage) : Prop :=
  ∀ sd, st.session_data = some sd → sd.metadata.total_laps = sd.laps.length

/-- Shape of the storage of a session that has been initialized and then
only accumulated samples and completed laps: an open lap numbered after
the stored laps with no time yet, and stored laps numbered `0, 1, …` each
carrying a time. -/
def wellFormed (st : SessionStorage) : Prop :=
  ∃ sd cl, st.session_data = some sd ∧ st.current_lap = some cl ∧
    st.current_lap_number = some cl.lap_number ∧
    cl.lap_number = sd.laps.length ∧ cl.lap_time = none ∧
    ∀ i (h : i < sd.laps.length),
      (sd.laps.get ⟨i, h⟩).lap_number = i ∧ (sd.laps.get ⟨i, h⟩).lap_time.isSome

/-- Invariant of a capture run over polls `p` whose first poll carried
external lap counter `c0` (counters non-decreasing in steps of ≤ 1, all
reported lap times positive): the observed counter sits at `c0` plus the
number of completed laps, completed lap `j` holds exactly the samples
polled while the counter read `c0 + j`, and the open lap those polled at
the current counter value. -/
def goodRun (c0 : Int) (p : List (Int × ℚ × Sample)) (st : CaptureState) : Prop :=
  ∃ sd cl, st.storage.session_data = some sd ∧ st.storage.current_lap = some cl ∧
    st.current_lap = some (c0 + sd.laps.length) ∧
    (∃ xl, p.getLast? = some xl ∧ xl.1 = c0 + sd.laps.length) ∧
    (∀ x ∈ p, x.1 ≤ c0 + sd.laps.length) ∧
    (∀ j (h : j < sd.laps.length),
      (sd.laps.get ⟨j, h⟩).telemetry.length = p.countP (fun y => y.1 == c0 + j)) ∧
    cl.telemetry.length = p.countP (fun y => y.1 == c0 + sd.laps.length)

/-! ## Concrete data for refutations and witnesses -/

/-- An all-zero telemetry sample. -/
def sample0 : Sample := ⟨0, 0, 0, 0, 0, 0, 0, 0, 0, 0, 0, 0, 0⟩

/-- A sample at normalized distance `pct` carrying speed `sp` and gear
`g`, all other channels zero. -/
def sampleAt (pct sp g : ℚ) : Sample := ⟨0, 0, pct, sp, 0, 0, 0, g, 0, 0, 0, 0, 0⟩

/-- Two polls whose external lap counter skips from 0 to 2 with valid
lap times throughout. -/
def c1Run : CaptureState :=
  runCapture (initialCapture "c1") [(0, 100, sample0), (2, 100, sample0)]

/-- Two polls: the counter rolls from 0 to 1 but the reported last-lap
time is `-1`, an invalid duration. -/
def c2Run : CaptureState :=
  runCapture (initialCapture "c2") [(0, 100, sample0), (1, -1, sample0)]

/-- Storage of a session holding one sampled open lap and no completed
laps. -/
def c4Store : SessionStorage :=
  add_telemetry_sample (initialize_session "c4") sample0

/-- The record persisted by a second `finalize_session` call on the same
session, the open lap never having been cleared by the first. -/
def c4Record : Option SessionData :=
  (finalize_session (finalize_session c4Store true).2 true).1

/-- An init / sample / complete-lap operation sequence. -/
def c3Ops : List StoreOp :=
  [.initSession "c3", .addSample sample0, .completeLap 100]

/-- Telemetry rising from gear 2 at distance 0 to gear 5 at distance
1/250, so the interpolated gear at grid point 1/1000 is 2.75. -/
def telY : List Sample := [sampleAt 0 0 2, sampleAt (1/250) 0 5]

/-- A two-lap session for exercising the comparison export. -/
def sdY : SessionData :=
  { metadata := { session_id := "y", total_laps := 2 },
    laps := [ { lap_number := 0, lap_time := some 100, telemetry := telY },
              { lap_number := 1, lap_time := some 101, telemetry := telY } ] }

/-- Storage of a session holding one sampled open lap. -/
def stW : SessionStorage :=
  add_telemetry_sample (initialize_session "w6") sample0

/-- The record `finalize_session stW true` persists. -/
def recW : SessionData :=
  { metadata := { session_id := "w6", total_laps := 1 },
    laps := [{ lap_number := 0, lap_time := none, telemetry := [sample0] }] }

/-- A lap's telemetry out of order by `lap_dist_pct`: distance 1/2 before
distance 0. -/
def telU : List Sample := [sampleAt (1/2) 10 0, sampleAt 0 0 0]

/-- Three polls: two at external counter 0, then a rollover to 1 with a
valid lap time. -/
def insW : List (Int × ℚ × Sample) :=
  [(0, 100, sample0), (0, 90, sample0), (1, 80, sample0)]

/-! ## Theorems -/

/-- C5: `finalize_session` with no session active is a no-op that
persists nothing; with `include_incomplete_lap = true` the open lap is
appended with its time cleared exactly when it holds at least one sample;
and whenever the resulting lap list is empty, nothing is persisted. -/
theorem C5_finalize_guards (st : SessionStorage) (incl : Bool) :
    (st.session_data = none → finalize_session st incl = (none, st)) ∧
    (∀ sd cl, st.session_data = some sd → st.current_lap = some cl →
      0 < cl.telemetry.length →
      sessionLaps (finalize_session st true).2 =
        sd.laps ++ [{ cl with lap_time := none }]) ∧
    (∀ sd cl, st.session_data = some sd → st.current_lap = some cl →
      cl.telemetry.length = 0 →
      sessionLaps (finalize_session st true).2 = sd.laps) ∧
    (sessionLaps (finalize_session st incl).2 = [] →
      (finalize_session st incl).1 = none) := by
  refine ⟨fun h => by simp [finalize_session, h], ?_, ?_, ?_⟩
  · intro sd cl hsd hcl hpos
    simp [finalize_session, hsd, hcl, hpos, sessionLaps]
  · intro sd cl hsd hcl hzero
    by_cases he : sd.laps.length = 0
    · simp [finalize_session, hsd, hcl, hzero, sessionLaps, he,
        List.length_eq_zero.mp he]
    · simp [finalize_session, hsd, hcl, hzero, sessionLaps, he]
  · intro h
    cases hsd : st.session_data with
    | none => simp [finalize_session, hsd]
    | some sd =>
      cases hcl : st.current_lap with
      | none =>
        by_cases he : sd.laps.length = 0
        · simp [finalize_session, hsd, hcl, he]
        · exfalso
          simp [finalize_session, hsd, hcl, he, sessionLaps] at h
          exact he (by simp [h])
      | some cl =>
        by_cases hc : incl = true ∧ 0 < cl.telemetry.length
        · exfalso
          simp [finalize_session, hsd, hcl, hc, sessionLaps] at h
        · by_cases he : sd.laps.length = 0
          · simp [finalize_session, hsd, hcl, hc, he]
          · exfalso
            simp [finalize_session, hsd, hcl, hc, he, sessionLaps] at h
            exact he (by simp [h])

/-- C5 witness: on a freshly initialized session with no samples,
finalizing with the open lap included persists nothing and appends no
lap. -/
theorem C5_finalize_guards_witness :
    (finalize_session SessionStorage.init true = (none, SessionStorage.init)) ∧
    sessionLaps (finalize_session (initialize_session "w5") true).2 = [] := by
  refine ⟨(C5_finalize_guards SessionStorage.init true).1 rfl, ?_⟩
  have h := (C5_finalize_guards (initialize_session "w5") true).2.2.1
    { metadata := { session_id := "w5", total_laps := 0 }, laps := [] }
    { lap_number := 0, lap_time := none, telemetry := [] } rfl rfl rfl
  simpa using h

/-- C10: `finalize_session` does not clear the open lap: after a first
finalize that appended the sampled open lap, the open lap is still
present, and a second finalize appends the very same lap again, so the
second persisted record holds it twice (two laps with one `lap_number`)
and its `total_laps` is one larger. -/
theorem C10_finalize_keeps_open_lap (st : SessionStorage) (sd : SessionData) (cl : Lap)
    (h1 : st.session_data = some sd) (h2 : st.current_lap = some cl)
    (h3 : 0 < cl.telemetry.length) :
    (finalize_session st true).2.current_lap = some { cl with lap_time := none } ∧
    (finalize_session st true).1 =
      some { metadata := { sd.metadata with total_laps := sd.laps.length + 1 },
             laps := sd.laps ++ [{ cl with lap_time := none }] } ∧
    (finalize_session (finalize_session st true).2 true).1 =
      some { metadata := { sd.metadata with total_laps := sd.laps.length + 2 },
             laps := sd.laps ++
               [{ cl with lap_time := none }, { cl with lap_time := none }] } := by
  simp [finalize_session, h1, h2, h3]

/-- C10 witness: the session with one sampled open lap and no completed
laps, finalized twice. -/
theorem C10_finalize_keeps_open_lap_witness :
    (finalize_session (finalize_session c4Store true).2 true).1 =
      some { metadata := { session_id := "c4", total_laps := 2 },
             laps := [{ lap_number := 0, lap_time := none, telemetry := [sample0] },
                      { lap_number := 0, lap_time := none, telemetry := [sample0] }] } := by
  have h := (C10_finalize_keeps_open_lap c4Store
    { metadata := { session_id := "c4", total_laps := 0 }, laps := [] }
    { lap_number := 0, lap_time := none, telemetry := [sample0] }
    rfl rfl (by decide)).2.2
  simpa using h

/-- Invariant `totalLapsInv` is preserved by every storage operation. -/
theorem totalLapsInv_applyOp (st : SessionStorage) (op : StoreOp)
    (h : totalLapsInv st) : totalLapsInv (applyOp st op) := by
  cases op with
  | initSession sid =>
    intro sd hsd
    simp [applyOp, initialize_session] at hsd
    simp [← hsd]
  | addSample s =>
    intro sd hsd
    unfold applyOp add_telemetry_sample at hsd
    cases hcl : st.current_lap with
    | none => rw [hcl] at hsd; exact h sd hsd
    | some cl => rw [hcl] at hsd; exact h sd hsd
  | completeLap t =>
    intro sd hsd
    unfold applyOp complete_lap at hsd
    cases hcl : st.current_lap with
    | none => rw [hcl] at hsd; exact h sd hsd
    | some cl =>
      rw [hcl] at hsd
      cases hsd' : st.session_data with
      | none => rw [hsd'] at hsd; exact h sd hsd
      | some sd0 =>
        rw [hsd'] at hsd
        simp at hsd
        simp [← hsd]
  | finalize incl =>
    intro sd hsd
    unfold applyOp finalize_session at hsd
    cases hsd' : st.session_data with
    | none => rw [hsd'] at hsd; exact h sd hsd
    | some sd0 =>
      rw [hsd'] at hsd
      simp only [] at hsd
      split at hsd <;>
        (simp at hsd;
         cases hcl : st.current_lap with
         | none => rw [hcl] at hsd; simp at hsd; rw [← hsd]; exact h sd0 hsd'
         | some cl =>
           rw [hcl] at hsd
           by_cases hc : incl = true ∧ 0 < cl.telemetry.length
           · simp [hc] at hsd; simp [← hsd]
           · simp [hc] at hsd; rw [← hsd]; exact h sd0 hsd')
  | resetOp =>
    intro sd hsd
    simp [applyOp, SessionStorage.reset, SessionStorage.init] at hsd

/-- Invariant `totalLapsInv` is preserved by any sequence of storage operations. -/
theorem totalLapsInv_foldl (ops : List StoreOp) :
    ∀ st, totalLapsInv st → totalLapsInv (ops.foldl applyOp st) := by
  induction ops with
  | nil => exact fun st h => h
  | cons op rest ih => exact fun st h => ih _ (totalLapsInv_applyOp st op h)

/-- C3: after any sequence of storage operations, the active session's
`total_laps` equals the length of its lap list. -/
theorem C3_total_laps (ops : List StoreOp) (sd : SessionData)
    (h : (runOps ops).session_data = some sd) :
    sd.metadata.total_laps = sd.laps.length :=
  totalLapsInv_foldl ops SessionStorage.init
    (fun _ h' => by simp [SessionStorage.init] at h') sd h

/-- C3 witness: an init / sample / complete-lap run. -/
theorem C3_total_laps_witness :
    ∃ sd, (runOps c3Ops).session_data = some sd ∧
      sd.metadata.total_laps = sd.laps.length :=
  ⟨_, rfl, C3_total_laps c3Ops _ rfl⟩

/-- C1 counterexample: two polls with strictly increasing external lap
counters 0 and 2 (valid lap times throughout) complete one lap, not
`final − initial = 2`. -/
theorem C1_counterexample :
    (sessionLaps c1Run.storage).length = 1 ∧
    ((2 : Int) - 0).toNat = 2 ∧
    ¬ (sessionLaps c1Run.storage).length = ((2 : Int) - 0).toNat := by
  decide

/-- C2 counterexample: at a rollover (counter 0 → 1) whose reported
last-lap time is −1, the open lap is NOT closed (no lap is stored, the
open lap keeps its number 0 and absorbs both samples), contradicting the
claim that the lap is closed and a new open lap started. -/
theorem C2_counterexample :
    sessionLaps c2Run.storage = [] ∧
    c2Run.storage.current_lap_number = some 0 ∧
    (c2Run.storage.current_lap.map (fun cl => cl.telemetry.length)) = some 2 ∧
    ¬ ((sessionLaps c2Run.storage).length = 1 ∧
       c2Run.storage.current_lap_number = some 1) := by
  decide

/-- C4 counterexample: finalizing the same session twice (the open lap is
never cleared) persists a record whose lap numbers are `[0, 0]` — not
contiguous starting at 0 — and whose first (non-final) lap lacks a
`lap_time`. -/
theorem C4_counterexample :
    ∃ r, c4Record = some r ∧
      r.laps.map Lap.lap_number = [0, 0] ∧
      ¬ r.laps.map Lap.lap_number = List.range r.laps.length ∧
      r.laps.map Lap.lap_time = [none, none] := by
  refine ⟨_, rfl, ?_, ?_, ?_⟩ <;> decide

/-- Appending a sample via `add_telemetry_sample` never touches the session record. -/
theorem add_sample_session_data (st : SessionStorage) (s : Sample) :
    (add_telemetry_sample st s).session_data = st.session_data := by
  unfold add_telemetry_sample
  cases st.current_lap <;> simp

/-- Appending a sample via `add_telemetry_sample` never changes the completed-lap list. -/
theorem sessionLaps_add (st : SessionStorage) (s : Sample) :
    sessionLaps (add_telemetry_sample st s) = sessionLaps st := by
  unfold sessionLaps
  rw [add_sample_session_data]

/-- C2 (amended): at a lap rollover whose reported last-lap time is
absent or not positive, the completion is skipped entirely: no lap is
stored (the session record is untouched), the open lap is not closed —
the sample is appended to the very same open lap — no new lap is
started, and the best-lap time is unchanged; only the observed external
counter advances. -/
theorem C2_invalid_time_skips_completion (st : CaptureState) (c n : Int)
    (lt : Option ℚ) (s : Sample)
    (hc : st.current_lap = some c) (hn : c < n)
    (hbad : ∀ q, lt = some q → ¬ 0 < q) :
    (processLapAndSample st ⟨some n, lt, s⟩).storage.session_data
        = st.storage.session_data ∧
    (processLapAndSample st ⟨some n, lt, s⟩).current_lap = some n ∧
    (processLapAndSample st ⟨some n, lt, s⟩).best_lap_time = st.best_lap_time ∧
    (∀ cl, st.storage.current_lap = some cl →
      (processLapAndSample st ⟨some n, lt, s⟩).storage.current_lap
        = some { cl with telemetry := cl.telemetry ++ [s] }) ∧
    (st.storage.current_lap = none →
      (processLapAndSample st ⟨some n, lt, s⟩).storage.current_lap = none) := by
  have hst1 : processLapAndSample st ⟨some n, lt, s⟩ =
      { st with current_lap := some n,
                storage := add_telemetry_sample st.storage s } := by
    cases lt with
    | none => simp [processLapAndSample, hc, hn]
    | some q => simp [processLapAndSample, hc, hn, hbad q rfl]
  rw [hst1]
  refine ⟨add_sample_session_data _ _, rfl, rfl, ?_, ?_⟩
  · intro cl hcl
    simp [add_telemetry_sample, hcl]
  · intro hcl
    simp [add_telemetry_sample, hcl]

/-- C2 witness: a freshly started session, one sample at counter 0, then
a rollover to counter 1 reporting last-lap time −1. -/
theorem C2_invalid_time_skips_completion_witness :
    (processLapAndSample (runCapture (initialCapture "w2") [(0, 100, sample0)])
        ⟨some 1, some (-1), sample0⟩).storage.session_data
      = (runCapture (initialCapture "w2") [(0, 100, sample0)]).storage.session_data ∧
    (processLapAndSample (runCapture (initialCapture "w2") [(0, 100, sample0)])
        ⟨some 1, some (-1), sample0⟩).current_lap = some 1 := by
  have h := C2_invalid_time_skips_completion
    (runCapture (initialCapture "w2") [(0, 100, sample0)]) 0 1 (some (-1)) sample0
    (by decide) (by decide)
    (by intro q hq; rw [Option.some_inj] at hq; rw [← hq]; decide)
  exact ⟨h.1, h.2.1⟩

/-- Reading a concatenated list at the length of its left part yields the
appended element. -/
theorem get_concat_last {α : Type} (l : List α) (a : α) (i : Nat)
    (hi : i < (l ++ [a]).length) (he : i = l.length) :
    (l ++ [a]).get ⟨i, hi⟩ = a := by
  subst he
  simp

/-- Pointwise-identity lap numbering turned into the contiguity of the
whole list. -/
theorem map_lapNumber_eq_range (laps : List Lap)
    (h : ∀ i (hi : i < laps.length), (laps.get ⟨i, hi⟩).lap_number = i) :
    laps.map Lap.lap_number = List.range laps.length := by
  apply List.ext_get (by simp)
  intro n h1 h2
  simp only [List.get_eq_getElem, List.getElem_map, List.getElem_range]
  exact h n (by simpa using h1)

/-- Shape `wellFormed` holds right after `initialize_session`. -/
theorem wellFormed_init (sid : String) : wellFormed (initialize_session sid) := by
  refine ⟨_, _, rfl, rfl, rfl, rfl, rfl, ?_⟩
  intro i h
  simp [initialize_session] at h

/-- Shape `wellFormed` is preserved by `add_telemetry_sample`. -/
theorem wellFormed_addSample (st : SessionStorage) (s : Sample)
    (h : wellFormed st) : wellFormed (add_telemetry_sample st s) := by
  obtain ⟨sd, cl, h1, h2, h3, h4, h5, h6⟩ := h
  refine ⟨sd, { cl with telemetry := cl.telemetry ++ [s] }, ?_, ?_, ?_, h4, h5, h6⟩
  · rw [add_sample_session_data]; exact h1
  · simp [add_telemetry_sample, h2]
  · simp [add_telemetry_sample, h2, h3]

/-- Shape `wellFormed` is preserved by `complete_lap`. -/
theorem wellFormed_completeLap (st : SessionStorage) (t : ℚ)
    (h : wellFormed st) : wellFormed ((complete_lap st t).1) := by
  obtain ⟨sd, cl, h1, h2, h3, h4, h5, h6⟩ := h
  have hgd : st.current_lap_number.getD cl.lap_number = cl.lap_number := by
    rw [h3]; rfl
  refine ⟨{ metadata := { sd.metadata with
              total_laps := (sd.laps ++ [{ cl with lap_time := some t }]).length },
            laps := sd.laps ++ [{ cl with lap_time := some t }] },
          { lap_number := cl.lap_number + 1, lap_time := none, telemetry := [] },
          ?_, ?_, ?_, ?_, rfl, ?_⟩
  · simp [complete_lap, h2, h1]
  · simp [complete_lap, h2, h1, hgd]
  · simp [complete_lap, h2, h1, hgd]
  · show cl.lap_number + 1 = (sd.laps ++ [{ cl with lap_time := some t }]).length
    simp [h4]
  · intro i hi
    simp only [List.length_append, List.length_cons, List.length_nil] at hi
    by_cases hlt : i < sd.laps.length
    · have := h6 i hlt
      constructor
      · rw [List.get_eq_getElem, List.getElem_append_left hlt]
        exact (h6 i hlt).1
      · rw [List.get_eq_getElem, List.getElem_append_left hlt]
        exact (h6 i hlt).2
    · have hieq : i = sd.laps.length := by omega
      constructor
      · rw [get_concat_last _ _ _ _ hieq]
        rw [hieq]
        exact h4
      · rw [get_concat_last _ _ _ _ hieq]
        rfl

/-- Shape `wellFormed` is preserved by any sequence of sample/complete-lap
operations. -/
theorem wellFormed_foldl (ops : List StoreOp) :
    ∀ st, (∀ op ∈ ops, midOp op) → wellFormed st →
      wellFormed (ops.foldl applyOp st) := by
  induction ops with
  | nil => exact fun st _ h => h
  | cons op rest ih =>
    intro st hops h
    rw [List.foldl_cons]
    have hrest : ∀ o ∈ rest, midOp o := fun o ho => hops o (List.mem_cons_of_mem _ ho)
    have hop := hops op (List.mem_cons_self _ _)
    cases op with
    | initSession sid => exact absurd hop (by simp [midOp])
    | addSample s => exact ih _ hrest (wellFormed_addSample st s h)
    | completeLap t => exact ih _ hrest (wellFormed_completeLap st t h)
    | finalize incl => exact absurd hop (by simp [midOp])
    | resetOp => exact absurd hop (by simp [midOp])

/-- C4 (amended): a record persisted by the FIRST `finalize_session` of a
session — initialization followed by sample accumulation and lap
completions only — has lap numbers contiguous from 0, a `lap_time` on
every lap except possibly the last, and a time-less final lap only if it
holds at least one sample.  (A second finalize on the same session can
break this: see the counterexample.) -/
theorem C4_first_finalize_contiguous (sid : String) (ops : List StoreOp)
    (incl : Bool) (r : SessionData)
    (hops : ∀ op ∈ ops, midOp op)
    (hfin : (finalize_session (ops.foldl applyOp (initialize_session sid)) incl).1
      = some r) :
    r.laps.map Lap.lap_number = List.range r.laps.length ∧
    (∀ i (h : i + 1 < r.laps.length),
      (r.laps.get ⟨i, by omega⟩).lap_time.isSome) ∧
    (∀ l, r.laps.getLast? = some l → l.lap_time = none → l.telemetry ≠ []) := by
  obtain ⟨sd, cl, h1, h2, h3, h4, h5, h6⟩ :=
    wellFormed_foldl ops (initialize_session sid) hops (wellFormed_init sid)
  by_cases hc : incl = true ∧ 0 < cl.telemetry.length
  · have hfin' : r =
        { metadata := { sd.metadata with total_laps := sd.laps.length + 1 },
          laps := sd.laps ++ [{ cl with lap_time := none }] } := by
      simp [finalize_session, h1, h2, hc] at hfin
      exact hfin.symm
    subst hfin'
    refine ⟨?_, ?_, ?_⟩
    · apply map_lapNumber_eq_range
      intro i hi
      simp only [List.length_append, List.length_cons, List.length_nil] at hi
      by_cases hlt : i < sd.laps.length
      · show ((sd.laps ++ [{ cl with lap_time := none }]).get ⟨i, _⟩).lap_number = i
        rw [List.get_eq_getElem, List.getElem_append_left hlt]
        exact (h6 i hlt).1
      · have hieq : i = sd.laps.length := by omega
        show ((sd.laps ++ [{ cl with lap_time := none }]).get ⟨i, _⟩).lap_number = i
        rw [get_concat_last _ _ _ _ hieq]
        rw [hieq]
        exact h4
    · intro i hi
      simp only [List.length_append, List.length_cons, List.length_nil] at hi
      have hlt : i < sd.laps.length := by omega
      show ((sd.laps ++ [{ cl with lap_time := none }]).get ⟨i, _⟩).lap_time.isSome = true
      rw [List.get_eq_getElem, List.getElem_append_left hlt]
      exact (h6 i hlt).2
    · intro l hl _
      have hl' : (sd.laps ++ [{ cl with lap_time := none }]).getLast? = some l := hl
      rw [List.getLast?_concat] at hl'
      rw [Option.some_inj] at hl'
      rw [← hl']
      have hpos := hc.2
      intro he
      have : cl.telemetry = [] := he
      rw [this] at hpos
      simp at hpos
  · have hr : r = sd := by
      by_cases he : sd.laps.length = 0
      · simp [finalize_session, h1, h2, hc, he] at hfin
      · simp [finalize_session, h1, h2, hc, he] at hfin
        exact hfin.symm
    subst hr
    refine ⟨?_, ?_, ?_⟩
    · exact map_lapNumber_eq_range _ (fun i hi => (h6 i hi).1)
    · intro i hi
      exact (h6 i (by omega)).2
    · intro l hl hnone
      obtain ⟨hne, heq⟩ := List.mem_getLast?_eq_getLast (Option.mem_def.mpr hl)
      have hmem : l ∈ r.laps := by rw [heq]; exact List.getLast_mem hne
      obtain ⟨i, hget⟩ := List.mem_iff_get.mp hmem
      exfalso
      have hsome := (h6 i.1 i.2).2
      rw [hget] at hsome
      rw [hnone] at hsome
      simp at hsome

/-- C4 witness: init, one sample, one completed lap, finalize including
the open lap. -/
theorem C4_first_finalize_contiguous_witness :
    ∃ r, (finalize_session
        ([StoreOp.addSample sample0, StoreOp.completeLap 100].foldl applyOp
          (initialize_session "w4")) true).1 = some r ∧
      r.laps.map Lap.lap_number = List.range r.laps.length := by
  refine ⟨_, rfl, ?_⟩
  exact (C4_first_finalize_contiguous "w4"
    [StoreOp.addSample sample0, StoreOp.completeLap 100] true _
    (by intro op hop; fin_cases hop <;> simp [midOp]) rfl).1

/-- A persisted record is never lap-free: `finalize_session` refuses to
write when the lap list is empty. -/
theorem finalize_some_nonempty (st : SessionStorage) (incl : Bool) (rec : SessionData)
    (h : (finalize_session st incl).1 = some rec) : 0 < rec.laps.length := by
  cases hsd : st.session_data with
  | none => simp [finalize_session, hsd] at h
  | some sd =>
    cases hcl : st.current_lap with
    | none =>
      by_cases he : sd.laps.length = 0
      · simp [finalize_session, hsd, hcl, he] at h
      · simp [finalize_session, hsd, hcl, he] at h
        rw [← h]
        omega
    | some cl =>
      by_cases hc : incl = true ∧ 0 < cl.telemetry.length
      · simp [finalize_session, hsd, hcl, hc] at h
        rw [← h]
        simp
      · by_cases he : sd.laps.length = 0
        · simp [finalize_session, hsd, hcl, hc, he] at h
        · simp [finalize_session, hsd, hcl, hc, he] at h
          rw [← h]
          omega

/-- Scanning past records that do not match the queried id finds the
appended record. -/
theorem load_session_append (earlier : List SessionData) (rec : SessionData)
    (huniq : ∀ sd ∈ earlier,
      (sd.metadata.session_id == rec.metadata.session_id
        || rec.metadata.session_id.isPrefixOf sd.metadata.session_id) = false) :
    load_session (earlier ++ [rec]) rec.metadata.session_id = some rec := by
  induction earlier with
  | nil => simp [load_session]
  | cons a rest ih =>
    have ha := huniq a (List.mem_cons_self _ _)
    simp only [load_session, List.cons_append]
    rw [List.find?_cons_of_neg _ (by simp [ha])]
    exact ih (fun sd hsd => huniq sd (List.mem_cons_of_mem _ hsd))

/-- C6: a session persisted by `finalize_session` holds at least one lap,
and loading the store back by the persisted session id returns a record
with identical lap count, lap times, and per-lap sample counts. -/
theorem C6_round_trip (st : SessionStorage) (incl : Bool) (rec : SessionData)
    (earlier : List SessionData)
    (hfin : (finalize_session st incl).1 = some rec)
    (huniq : ∀ sd ∈ earlier,
      (sd.metadata.session_id == rec.metadata.session_id
        || rec.metadata.session_id.isPrefixOf sd.metadata.session_id) = false) :
    0 < rec.laps.length ∧
    ∃ r, load_session (earlier ++ [rec]) rec.metadata.session_id = some r ∧
      r.laps.length = rec.laps.length ∧
      r.laps.map Lap.lap_time = rec.laps.map Lap.lap_time ∧
      r.laps.map (fun l => l.telemetry.length)
        = rec.laps.map (fun l => l.telemetry.length) :=
  ⟨finalize_some_nonempty st incl rec hfin,
   rec, load_session_append earlier rec huniq, rfl, rfl, rfl⟩

/-- C6 witness: a one-lap session persisted into an empty store and
loaded back by its id. -/
theorem C6_round_trip_witness :
    0 < recW.laps.length ∧
    ∃ r, load_session ([] ++ [recW]) recW.metadata.session_id = some r ∧
      r.laps.length = recW.laps.length ∧
      r.laps.map Lap.lap_time = recW.laps.map Lap.lap_time ∧
      r.laps.map (fun l => l.telemetry.length)
        = recW.laps.map (fun l => l.telemetry.length) :=
  C6_round_trip stW true recW [] (by decide) (by intro sd hsd; simp at hsd)

/-- The collection loop succeeds exactly when every requested lap is
present with nonempty telemetry. -/
theorem collect_some_iff (laps : List Lap) (ns : List Int) :
    (collectLapsData laps ns).isSome ↔
      ∀ n ∈ ns, ∃ l, findLap laps (n - 1) = some l ∧ l.telemetry ≠ [] := by
  induction ns with
  | nil => simp [collectLapsData]
  | cons n rest ih =>
    simp only [collectLapsData]
    cases hf : findLap laps (n - 1) with
    | none => simp [hf]
    | some l =>
      by_cases ht : l.telemetry.isEmpty
      · have hemp : l.telemetry = [] := List.isEmpty_iff.mp ht
        simp [hf, ht, hemp]
      · have hne : l.telemetry ≠ [] := by
          intro he
          rw [he] at ht
          exact ht rfl
        simp [hf, ht, ih, hne]

/-- A successful collection returns one entry per requested lap. -/
theorem collect_length (laps : List Lap) (ns : List Int)
    (r : List (Int × List Sample)) (h : collectLapsData laps ns = some r) :
    r.length = ns.length := by
  induction ns generalizing r with
  | nil =>
    simp [collectLapsData] at h
    simp [← h]
  | cons n rest ih =>
    simp only [collectLapsData] at h
    cases hf : findLap laps (n - 1) with
    | none => rw [hf] at h; cases h
    | some l =>
      rw [hf] at h
      by_cases ht : l.telemetry.isEmpty
      · simp [ht] at h
      · simp only [ht, Bool.false_eq_true, if_false] at h
        rw [Option.map_eq_some'] at h
        obtain ⟨r', hc, hr⟩ := h
        rw [← hr]
        simp [ih r' hc]

/-- Every entry of a successful collection is a requested lap's found
telemetry, nonempty. -/
theorem collect_mem (laps : List Lap) (ns : List Int)
    (r : List (Int × List Sample)) (h : collectLapsData laps ns = some r) :
    ∀ p ∈ r, ∃ l, findLap laps (p.1 - 1) = some l ∧ p.2 = l.telemetry ∧
      l.telemetry ≠ [] := by
  induction ns generalizing r with
  | nil =>
    simp [collectLapsData] at h
    subst h
    simp
  | cons n rest ih =>
    simp only [collectLapsData] at h
    cases hf : findLap laps (n - 1) with
    | none => rw [hf] at h; cases h
    | some l =>
      rw [hf] at h
      by_cases ht : l.telemetry.isEmpty
      · simp [ht] at h
      · have hne : l.telemetry ≠ [] := by
          intro he
          rw [he] at ht
          exact ht rfl
        simp only [ht, Bool.false_eq_true, if_false] at h
        rw [Option.map_eq_some'] at h
        obtain ⟨r', hc, hr⟩ := h
        intro p hp
        rw [← hr] at hp
        rcases List.mem_cons.mp hp with hph | hpt
        · subst hph
          exact ⟨l, hf, rfl, hne⟩
        · exact ih r' hc p hpt

/-- Unfolds `export_comparison_csv` after a successful collection, with the
validation and row construction exposed. -/
theorem export_eq (sd : SessionData) (ns : List Int)
    (r : List (Int × List Sample)) (h : collectLapsData sd.laps ns = some r) :
    export_comparison_csv sd ns =
      (if r.isEmpty then none
       else if r.length < 2 then none
       else
         let interpolated_laps := r.filterMap
           (fun p => (interpolate_telemetry p.2 target_distances).map
             (fun c => (p.1, c)))
         if interpolated_laps.isEmpty then none
         else some ((List.range 1000).map (mkRow interpolated_laps))) := by
  unfold export_comparison_csv
  rw [h]

/-- C7: the comparison export produces a table exactly when at least two
laps are requested and every requested lap exists in the session with
nonempty telemetry; otherwise no file is written (and never a partial
one). -/
theorem C7_comparison_requires_two_valid_laps (sd : SessionData) (ns : List Int) :
    (export_comparison_csv sd ns).isSome ↔
      2 ≤ ns.length ∧
      ∀ n ∈ ns, ∃ l, findLap sd.laps (n - 1) = some l ∧ l.telemetry ≠ [] := by
  cases hc : collectLapsData sd.laps ns with
  | none =>
    have hall := collect_some_iff sd.laps ns
    rw [hc] at hall
    simp only [Option.isSome_none, Bool.false_eq_true, false_iff] at hall
    have hnone : export_comparison_csv sd ns = none := by
      unfold export_comparison_csv
      rw [hc]
    simp [hnone, hall]
  | some r =>
    rw [export_eq sd ns r hc]
    have hlen := collect_length sd.laps ns r hc
    have hall : ∀ n ∈ ns, ∃ l, findLap sd.laps (n - 1) = some l ∧
        l.telemetry ≠ [] :=
      (collect_some_iff sd.laps ns).mp (by rw [hc]; rfl)
    constructor
    · intro hs
      refine ⟨?_, hall⟩
      by_cases h1 : r.isEmpty
      · rw [if_pos h1] at hs; simp at hs
      · rw [if_neg h1] at hs
        by_cases h2 : r.length < 2
        · rw [if_pos h2] at hs; simp at hs
        · omega
    · rintro ⟨h2, -⟩
      obtain ⟨p, r', rfl⟩ : ∃ p r', r = p :: r' := by
        cases r with
        | nil => simp at hlen; omega
        | cons p r' => exact ⟨p, r', rfl⟩
      rw [if_neg (by simp)]
      rw [if_neg (by simp only [List.length_cons]; simp only [List.length_cons] at hlen; omega)]
      obtain ⟨l, hf, hpl, hne⟩ := collect_mem sd.laps ns _ hc p (List.mem_cons_self _ _)
      have hint : (interpolate_telemetry p.2 target_distances).isSome := by
        rw [hpl]
        simp [interpolate_telemetry, hne]
      cases hi : interpolate_telemetry p.2 target_distances with
      | none => rw [hi] at hint; cases hint
      | some c => simp [List.filterMap_cons, hi]

/-- The run invariant holds after the first poll. -/
theorem goodRun_single (sid : String) (x : Int × ℚ × Sample) :
    goodRun x.1 [x] (runCapture (initialCapture sid) [x]) := by
  refine ⟨{ metadata := { session_id := sid, total_laps := 0 }, laps := [] },
          { lap_number := 0, lap_time := none, telemetry := [x.2.2] },
          rfl, rfl, ?_, ⟨x, by simp, by simp⟩, ?_, ?_, ?_⟩
  · simp only [List.length_nil, Nat.cast_zero, add_zero]
    rfl
  · intro y hy
    simp at hy
    simp [hy]
  · intro j hj
    simp at hj
  · simp

/-- The run invariant is preserved by one more poll whose counter either
repeats the last observed value or exceeds it by exactly 1, with a
positive reported lap time. -/
theorem goodRun_step (c0 : Int) (q : List (Int × ℚ × Sample)) (x : Int × ℚ × Sample)
    (st : CaptureState) (hg : goodRun c0 q st)
    (hx : ∃ xl, q.getLast? = some xl ∧ (x.1 = xl.1 ∨ x.1 = xl.1 + 1))
    (hpos : 0 < x.2.1) :
    goodRun c0 (q ++ [x]) (processLapAndSample st (mkInput x.1 x.2.1 x.2.2)) := by
  obtain ⟨sd, cl, h1, h2, h3, ⟨xl, hxl, hxlv⟩, h5, h6, h7⟩ := hg
  obtain ⟨xl', hxl', hxv⟩ := hx
  rw [hxl, Option.some_inj] at hxl'
  subst hxl'
  rcases hxv with heq | hinc
  · -- repeated counter: no completion fires
    have hx1 : x.1 = c0 + sd.laps.length := by rw [heq, hxlv]
    have hproc : processLapAndSample st (mkInput x.1 x.2.1 x.2.2) =
        { st with storage := add_telemetry_sample st.storage x.2.2 } := by
      simp [processLapAndSample, mkInput, h3, hx1]
    rw [hproc]
    refine ⟨sd, { cl with telemetry := cl.telemetry ++ [x.2.2] },
      ?_, ?_, h3, ⟨x, by simp, hx1⟩, ?_, ?_, ?_⟩
    · rw [add_sample_session_data]
      exact h1
    · simp [add_telemetry_sample, h2]
    · intro y hy
      rcases List.mem_append.mp hy with hyq | hyx
      · exact h5 y hyq
      · have hyeq : y = x := by simpa using hyx
        rw [hyeq, hx1]
    · intro j hj
      rw [List.countP_append, h6 j hj]
      have hzero : List.countP (fun y => y.1 == c0 + (j : Int)) [x] = 0 := by
        simp only [List.countP_cons, List.countP_nil]
        have : ¬ (x.1 = c0 + (j : Int)) := by
          rw [hx1]
          intro hcontra
          omega
        simp [this]
      rw [hzero]
      omega
    · rw [List.countP_append]
      have hone : List.countP (fun y => y.1 == c0 + (sd.laps.length : Int)) [x] = 1 := by
        simp only [List.countP_cons, List.countP_nil]
        simp [hx1]
      simp only [List.length_append, List.length_cons, List.length_nil]
      rw [hone, h7]
  · -- counter incremented by 1: the open lap is completed
    have hx1 : x.1 = c0 + sd.laps.length + 1 := by rw [hinc, hxlv]
    have hgt : c0 + (sd.laps.length : Int) < x.1 := by omega
    have hcomp : (complete_lap st.storage x.2.1).1 =
        { session_data := some
            { metadata := { sd.metadata with total_laps := sd.laps.length + 1 },
              laps := sd.laps ++ [{ cl with lap_time := some x.2.1 }] },
          current_lap := some
            { lap_number := st.storage.current_lap_number.getD cl.lap_number + 1,
              lap_time := none, telemetry := [] },
          current_lap_number :=
            some (st.storage.current_lap_number.getD cl.lap_number + 1) } := by
      simp [complete_lap, h2, h1]
    have hpstor : (processLapAndSample st (mkInput x.1 x.2.1 x.2.2)).storage
        = add_telemetry_sample (complete_lap st.storage x.2.1).1 x.2.2 := by
      simp [processLapAndSample, mkInput, h3, hgt, hpos]
    have hpcur : (processLapAndSample st (mkInput x.1 x.2.1 x.2.2)).current_lap
        = some x.1 := by
      simp [processLapAndSample, mkInput, h3, hgt, hpos]
    refine ⟨{ metadata := { sd.metadata with total_laps := sd.laps.length + 1 },
              laps := sd.laps ++ [{ cl with lap_time := some x.2.1 }] },
            { lap_number := st.storage.current_lap_number.getD cl.lap_number + 1,
              lap_time := none, telemetry := [x.2.2] }, ?_, ?_, ?_, ?_, ?_, ?_, ?_⟩
    · rw [hpstor, add_sample_session_data, hcomp]
    · rw [hpstor, hcomp]
      simp [add_telemetry_sample]
    · rw [hpcur, hx1]
      simp only [List.length_append, List.length_cons, List.length_nil]
      congr 1
      push_cast
      ring
    · refine ⟨x, by simp, ?_⟩
      rw [hx1]
      simp only [List.length_append, List.length_cons, List.length_nil]
      push_cast
      ring
    · intro y hy
      simp only [List.length_append, List.length_cons, List.length_nil]
      rcases List.mem_append.mp hy with hyq | hyx
      · have := h5 y hyq
        push_cast
        omega
      · have hyeq : y = x := by simpa using hyx
        rw [hyeq, hx1]
        push_cast
        omega
    · intro j hj
      simp only [List.length_append, List.length_cons, List.length_nil] at hj
      rw [List.countP_append]
      have hxne : ¬ (x.1 = c0 + (j : Int)) := by
        rw [hx1]
        intro hcontra
        omega
      have hzero : List.countP (fun y => y.1 == c0 + (j : Int)) [x] = 0 := by
        simp only [List.countP_cons, List.countP_nil]
        simp [hxne]
      rw [hzero]
      by_cases hlt : j < sd.laps.length
      · have hget : ((sd.laps ++ [{ cl with lap_time := some x.2.1 }]).get
            ⟨j, by simp; omega⟩) = sd.laps.get ⟨j, hlt⟩ := by
          rw [List.get_eq_getElem, List.get_eq_getElem, List.getElem_append_left hlt]
        rw [hget, h6 j hlt]
        omega
      · have hjeq : j = sd.laps.length := by omega
        rw [get_concat_last _ _ _ _ hjeq]
        rw [hjeq, h7]
        omega
    · simp only [List.length_append, List.length_cons, List.length_nil,
        List.countP_append]
      have hq0 : List.countP
          (fun y => y.1 == c0 + ((sd.laps.length + 1 : Nat) : Int)) q = 0 := by
        rw [List.countP_eq_zero]
        intro y hy
        have := h5 y hy
        simp only [beq_iff_eq]
        push_cast
        omega
      have hx1' : List.countP
          (fun y => y.1 == c0 + ((sd.laps.length + 1 : Nat) : Int)) [x] = 1 := by
        simp only [List.countP_cons, List.countP_nil]
        have : x.1 = c0 + ((sd.laps.length + 1 : Nat) : Int) := by
          rw [hx1]; push_cast; ring
        simp [this]
      rw [hq0, hx1']

/-- The run invariant holds after any nonempty chain of polls whose
counters never decrease and rise in steps of 1, with positive reported
lap times. -/
theorem goodRun_run (sid : String) (p : List (Int × ℚ × Sample)) :
    ∀ x0, p.head? = some x0 →
      List.Chain' (fun a b => b.1 = a.1 ∨ b.1 = a.1 + 1) p →
      (∀ x ∈ p, 0 < x.2.1) →
      goodRun x0.1 p (runCapture (initialCapture sid) p) := by
  induction p using List.reverseRecOn with
  | nil =>
    intro x0 hh _ _
    simp at hh
  | append_singleton q x ih =>
    intro x0 hh hchain hpos
    cases q with
    | nil =>
      simp only [List.nil_append] at hh hchain hpos ⊢
      simp only [List.head?_cons, Option.some_inj] at hh
      subst hh
      exact goodRun_single sid x
    | cons a q' =>
      simp only [List.cons_append, List.head?_cons, Option.some_inj] at hh
      obtain rfl : x0 = a := hh.symm
      obtain ⟨hchain1, -, hrel⟩ := List.chain'_append.mp hchain
      have hqne : (x0 :: q') ≠ ([] : List (Int × ℚ × Sample)) := by simp
      have hxl : (x0 :: q').getLast? = some ((x0 :: q').getLast hqne) :=
        List.getLast?_eq_getLast_of_ne_nil _
      have hrx := hrel _ (Option.mem_def.mpr hxl) x (by simp)
      have hpos1 : ∀ y ∈ (x0 :: q'), 0 < y.2.1 := by
        intro y hy
        exact hpos y (List.mem_append_left [x] hy)
      have hg := ih x0 rfl hchain1 hpos1
      have hrun : runCapture (initialCapture sid) ((x0 :: q') ++ [x])
          = processLapAndSample (runCapture (initialCapture sid) (x0 :: q'))
              (mkInput x.1 x.2.1 x.2.2) := by
        simp [runCapture, List.foldl_append]
      rw [hrun]
      exact goodRun_step x0.1 (x0 :: q') x _ hg ⟨_, hxl, hrx⟩
        (hpos x (List.mem_append_right _ (by simp)))

/-- C1 (amended): during an active session, a lap completion fires only
on a strict increase of the external lap counter — an equal or lower
counter leaves the lap list untouched, and the first observed counter
only seeds the tracker.  Consequently, for every nonempty poll sequence
whose counter never decreases, rises in steps of exactly 1, and reports a
positive last-lap time at every poll, the number of completed laps equals
final counter − initial counter, and completed lap `j` holds exactly the
samples polled while the counter read `initial + j`.  (A counter that
skips values breaks the count: see the counterexample.) -/
theorem C1_lap_rollover_counting :
    (∀ (st : CaptureState) (c n : Int) (lt : ℚ) (s : Sample),
      st.current_lap = some c → n ≤ c →
      sessionLaps (processLapAndSample st (mkInput n lt s)).storage
          = sessionLaps st.storage ∧
      (processLapAndSample st (mkInput n lt s)).current_lap = some c) ∧
    (∀ (st : CaptureState) (n : Int) (lt : ℚ) (s : Sample),
      st.current_lap = none →
      sessionLaps (processLapAndSample st (mkInput n lt s)).storage
          = sessionLaps st.storage ∧
      (processLapAndSample st (mkInput n lt s)).current_lap = some n) ∧
    (∀ (sid : String) (ins : List (Int × ℚ × Sample)) (x0 xl : Int × ℚ × Sample),
      ins.head? = some x0 → ins.getLast? = some xl →
      List.Chain' (fun a b => b.1 = a.1 ∨ b.1 = a.1 + 1) ins →
      (∀ x ∈ ins, 0 < x.2.1) →
      (sessionLaps (runCapture (initialCapture sid) ins).storage).length
          = (xl.1 - x0.1).toNat ∧
      ∀ j (hj : j < (sessionLaps (runCapture (initialCapture sid) ins).storage).length),
        ((sessionLaps (runCapture (initialCapture sid) ins).storage).get
            ⟨j, hj⟩).telemetry.length
          = ins.countP (fun y => y.1 == x0.1 + (j : Int))) := by
  refine ⟨?_, ?_, ?_⟩
  · intro st c n lt s hc hn
    have hproc : processLapAndSample st (mkInput n lt s) =
        { st with storage := add_telemetry_sample st.storage s } := by
      simp [processLapAndSample, mkInput, hc, not_lt.mpr hn]
    rw [hproc]
    exact ⟨sessionLaps_add _ _, hc⟩
  · intro st n lt s hc
    have hproc : processLapAndSample st (mkInput n lt s) =
        { st with current_lap := some n,
                  storage := add_telemetry_sample st.storage s } := by
      simp [processLapAndSample, mkInput, hc]
    rw [hproc]
    exact ⟨sessionLaps_add _ _, rfl⟩
  · intro sid ins x0 xl hh hl hchain hpos
    obtain ⟨sd, cl, h1, h2, h3, ⟨xl', hxl', hxlv⟩, h5, h6, h7⟩ :=
      goodRun_run sid ins x0 hh hchain hpos
    have hslaps : sessionLaps (runCapture (initialCapture sid) ins).storage
        = sd.laps := by
      unfold sessionLaps
      rw [h1]
    rw [hl, Option.some_inj] at hxl'
    subst hxl'
    constructor
    · rw [hslaps]
      omega
    · intro j hj
      rw [List.get_of_eq hslaps ⟨j, hj⟩]
      exact h6 j (by rw [hslaps] at hj; exact hj)

/-- C1 witness: polls 0, 0, 1 with valid times complete exactly
`1 − 0 = 1` lap, and one more poll repeating counter 1 completes
nothing. -/
theorem C1_lap_rollover_counting_witness :
    (sessionLaps (runCapture (initialCapture "w1") insW).storage).length
      = ((1 : Int) - 0).toNat ∧
    sessionLaps (processLapAndSample (runCapture (initialCapture "w1") insW)
        (mkInput 1 70 sample0)).storage
      = sessionLaps (runCapture (initialCapture "w1") insW).storage := by
  constructor
  · exact (C1_lap_rollover_counting.2.2 "w1" insW (0, 100, sample0) (1, 80, sample0)
      (by decide) (by decide)
      (by norm_num [insW, List.chain'_cons, List.chain'_singleton]) (by decide)).1
  · exact (C1_lap_rollover_counting.1 (runCapture (initialCapture "w1") insW)
      1 1 70 sample0 (by decide) (by decide)).1

/-- C9 (amended): `_interpolate_telemetry` uses the samples in their
stored chronological order, performing no sort; when the samples are
already ascending in `lap_dist_pct`, this coincides with resampling the
sorted sequence.  (For unsorted samples the two differ: see the
counterexample.) -/
theorem C9_sorted_resampling (tel : List Sample)
    (hs : List.Pairwise (fun a b => a.lap_dist_pct ≤ b.lap_dist_pct) tel)
    (targets : List ℚ) :
    interpolate_telemetry tel targets
      = interpolate_telemetry (sortByDistPct tel) targets := by
  rw [sortByDistPct, List.Sorted.insertionSort_eq hs]

/-- C9 witness: a two-sample lap already sorted by distance. -/
theorem C9_sorted_resampling_witness :
    interpolate_telemetry telY target_distances
      = interpolate_telemetry (sortByDistPct telY) target_distances :=
  C9_sorted_resampling telY (by decide) target_distances

/-- C9 counterexample: a lap sampled at distances 1/2 then 0 resamples
differently from its sorted copy — at grid point 250 (distance 0.25) the
stored order yields speed 0 where the sorted order yields 5 — so the
interpolation does NOT operate on samples sorted by `lap_dist_pct`. -/
theorem C9_counterexample :
    ((interpolate_telemetry telU target_distances).map
        (fun c => c.speed.getD 250 0)) = some 0 ∧
    ((interpolate_telemetry (sortByDistPct telU) target_distances).map
        (fun c => c.speed.getD 250 0)) = some 5 ∧
    interpolate_telemetry telU target_distances
      ≠ interpolate_telemetry (sortByDistPct telU) target_distances := by
  have h1 : ((interpolate_telemetry telU target_distances).map
      (fun c => c.speed.getD 250 0)) = some 0 := by decide
  have h2 : ((interpolate_telemetry (sortByDistPct telU) target_distances).map
      (fun c => c.speed.getD 250 0)) = some 5 := by decide
  refine ⟨h1, h2, ?_⟩
  intro h
  rw [h] at h1
  rw [h2] at h1
  exact absurd (Option.some_inj.mp h1) (by norm_num)

/-- Reading an interpolated channel list at a grid index is interpolation
at that grid point. -/
theorem np_interp_getD (xs ys : List ℚ) (i : Nat) (hi : i < 1000) :
    (np_interp target_distances xs ys).getD i 0
      = np_interp_point ((i : ℚ) / 1000) xs ys := by
  unfold np_interp target_distances
  rw [List.getD_eq_getElem?_getD, List.getElem?_map, List.getElem?_map,
    List.getElem?_range hi, Option.map_some', Option.map_some', Option.getD_some]

/-- C8 (amended): every gear cell of the comparison table is the
interpolated gear value TRUNCATED toward zero (Python `int()`), computed
from the corresponding lap's samples at that row's grid point. -/
theorem C8_gear_truncated (sd : SessionData) (ns : List Int) (t : List Row)
    (h : export_comparison_csv sd ns = some t) (i : Nat) (hi : i < t.length) :
    ∀ p ∈ (t.get ⟨i, hi⟩).laps, ∃ l,
      findLap sd.laps (p.1 - 1) = some l ∧
      p.2.gear = pyInt (np_interp_point ((i : ℚ) / 1000)
        (l.telemetry.map (fun s => s.lap_dist_pct))
        (l.telemetry.map (fun s => s.gear))) := by
  cases hc : collectLapsData sd.laps ns with
  | none =>
    have hnone : export_comparison_csv sd ns = none := by
      unfold export_comparison_csv
      rw [hc]
    rw [hnone] at h
    cases h
  | some r =>
    rw [export_eq sd ns r hc] at h
    by_cases h1 : r.isEmpty
    · rw [if_pos h1] at h; cases h
    rw [if_neg h1] at h
    by_cases h2 : r.length < 2
    · rw [if_pos h2] at h; cases h
    rw [if_neg h2] at h
    by_cases h3 : (r.filterMap (fun p =>
        (interpolate_telemetry p.2 target_distances).map
          (fun c => (p.1, c)))).isEmpty
    · rw [if_pos h3] at h; cases h
    rw [if_neg h3] at h
    have ht : t = (List.range 1000).map (mkRow (r.filterMap (fun p =>
        (interpolate_telemetry p.2 target_distances).map
          (fun c => (p.1, c))))) := (Option.some_inj.mp h).symm
    subst ht
    have hi1000 : i < 1000 := by simpa using hi
    have hrow : ((List.range 1000).map (mkRow (r.filterMap (fun p =>
        (interpolate_telemetry p.2 target_distances).map
          (fun c => (p.1, c)))))).get ⟨i, hi⟩
        = mkRow (r.filterMap (fun p =>
            (interpolate_telemetry p.2 target_distances).map
              (fun c => (p.1, c)))) i := by
      rw [List.get_eq_getElem, List.getElem_map, List.getElem_range]
    rw [hrow]
    intro p hp
    simp only [mkRow] at hp
    rw [List.mem_map] at hp
    obtain ⟨q, hq, hpq⟩ := hp
    rw [List.mem_filterMap] at hq
    obtain ⟨pd, hpd, hfq⟩ := hq
    rw [Option.map_eq_some'] at hfq
    obtain ⟨c, hcint, hqc⟩ := hfq
    obtain ⟨l, hfind, hpl, hne⟩ := collect_mem sd.laps ns r hc pd hpd
    rw [hpl] at hcint
    have hbe : ¬ (l.telemetry.isEmpty = true) := by
      cases hl : l.telemetry with
      | nil => exact absurd hl hne
      | cons a as => simp
    have hcg : c.gear = np_interp target_distances
        (l.telemetry.map (fun s => s.lap_dist_pct))
        (l.telemetry.map (fun s => s.gear)) := by
      unfold interpolate_telemetry at hcint
      rw [if_neg hbe] at hcint
      rw [Option.some_inj] at hcint
      rw [← hcint]
    refine ⟨l, ?_, ?_⟩
    · rw [← hpq, ← hqc]
      exact hfind
    · rw [← hpq, ← hqc]
      show pyInt (c.gear.getD i 0) = _
      rw [hcg, np_interp_getD _ _ i hi1000]

/-- C8 witness: row 1 of the comparison table for session `sdY`, where
the interpolated gear is 11/4 and the written cell is 2. -/
theorem C8_gear_truncated_witness :
    ∃ l, findLap sdY.laps ((1 : Int) - 1) = some l ∧
      (2 : Int) = pyInt (np_interp_point ((1 : ℚ) / 1000)
        (l.telemetry.map (fun s => s.lap_dist_pct))
        (l.telemetry.map (fun s => s.gear))) := by
  exact C8_gear_truncated sdY [1, 2]
    ((export_comparison_csv sdY [1, 2]).get (of_decide_eq_true rfl))
    (Option.some_get (show (export_comparison_csv sdY [1, 2]).isSome
      from of_decide_eq_true rfl)).symm 1 (of_decide_eq_true rfl)
    ((1 : Int),
      { speed := 0, throttle := 0, brake := 0, steering := 0, gear := 2,
        rpm := 0, lat_accel := 0, long_accel := 0, yaw_rate := 0,
        steering_wheel_angle := 0 }) (of_decide_eq_true rfl)

/-- C8 counterexample: in the comparison export of `sdY`, row 1's gear
cells hold 2 (truncation of 11/4) while rounding 11/4 to the nearest
integer gives 3 — the written gear is NOT the value rounded to
nearest. -/
theorem C8_counterexample :
    ∃ t, export_comparison_csv sdY [1, 2] = some t ∧
      ((t.get? 1).map (fun row => row.laps.map (fun p => p.2.gear)))
        = some [2, 2] ∧
      roundNearestSpec (np_interp_point ((1 : ℚ) / 1000)
        (telY.map (fun s => s.lap_dist_pct))
        (telY.map (fun s => s.gear))) = 3 ∧
      ¬ ((2 : Int) = 3) := by
  refine ⟨(export_comparison_csv sdY [1, 2]).get (of_decide_eq_true rfl),
    (Option.some_get (show (export_comparison_csv sdY [1, 2]).isSome
      from of_decide_eq_true rfl)).symm,
    of_decide_eq_true rfl, of_decide_eq_true rfl, of_decide_eq_true rfl⟩

end ITT
